import Mathlib

/-!
Shallow embedding of the SmartPlan core algorithms: the time utilities and
conflict detector from the conflict-dialog module, and the reminder
notification scheduler from the reminders page, together with the PATCH
merge semantics of the reminder persistence layer.

JavaScript numbers are modelled by `JSNum`: either an integer or `nan`.
Every arithmetic operation propagates `nan` and every comparison with a
`nan` operand is false, mirroring IEEE NaN semantics as observed by the
code (which only ever adds, multiplies, floor-divides and compares).
Local-time instants are modelled as milliseconds since the 1970-01-01
local epoch via the standard civil-from-days calendar arithmetic; the
model is a fixed-offset local clock (no DST transitions), which is the
granularity at which the code's date arithmetic is specified.
-/

namespace SmartPlan

/-- A JavaScript number as used by this code: an integer or NaN. -/
inductive JSNum where
  | nan : JSNum
  | num (n : Int) : JSNum
deriving DecidableEq, Repr

/-- JS addition: NaN propagates. -/
def jsAdd : JSNum → JSNum → JSNum
  | .num a, .num b => .num (a + b)
  | _, _ => .nan

/-- JS subtraction: NaN propagates. -/
def jsSub : JSNum → JSNum → JSNum
  | .num a, .num b => .num (a - b)
  | _, _ => .nan

/-- JS multiplication: NaN propagates. -/
def jsMul : JSNum → JSNum → JSNum
  | .num a, .num b => .num (a * b)
  | _, _ => .nan

/-- JS `<`: any comparison involving NaN is false. -/
def jsLt : JSNum → JSNum → Bool
  | .num a, .num b => decide (a < b)
  | _, _ => false

/-- JS `<=`: any comparison involving NaN is false. -/
def jsLe : JSNum → JSNum → Bool
  | .num a, .num b => decide (a ≤ b)
  | _, _ => false

/-- `Math.floor(x / k)` for a positive integer constant `k`: floor division,
NaN propagates. -/
def jsFloorDiv (x : JSNum) (k : Int) : JSNum :=
  match x with
  | .nan => .nan
  | .num a => .num (a.fdiv k)

/-- JS `String.prototype.split` with a one-character separator, over the
character list of the string: `"".split(sep)` is `[""]`, and separators cut
the string into (possibly empty) fields. -/
def splitOnSep (sep : Char) : List Char → List (List Char)
  | [] => [[]]
  | c :: rest =>
    match splitOnSep sep rest with
    | [] => [[c]]
    | h :: t => if c = sep then [] :: h :: t else (c :: h) :: t

/-- The numeric value of a decimal digit character, if it is one. -/
def digitVal (c : Char) : Option Nat :=
  if '0' ≤ c ∧ c ≤ '9' then some (c.toNat - '0'.toNat) else none

/-- Accumulating decimal parse; fails on any non-digit character. -/
def parseDigits (acc : Nat) : List Char → Option Nat
  | [] => some acc
  | c :: rest =>
    match digitVal c with
    | some d => parseDigits (acc * 10 + d) rest
    | none => none

/-- `Number(s)` for the inputs occurring in this code: the empty string is 0,
a nonnegative decimal numeral is its value, anything else (in particular any
field with a non-digit character) is NaN. -/
def jsNumber (s : List Char) : JSNum :=
  if s = [] then .num 0
  else match parseDigits 0 s with
    | some n => .num n
    | none => .nan

/-- Indexing into the result of a `split`, then `Number`: an out-of-range
access yields `undefined`, and `Number(undefined)` is NaN. -/
def jsIndexNum (parts : List (List Char)) (i : Nat) : JSNum :=
  match parts[i]? with
  | some s => jsNumber s
  | none => .nan

/-- Days from 1970-01-01 to the first of month `m` (1-12) of year `y`,
civil (proleptic Gregorian) calendar. -/
def daysFromCivil (y : Int) (m : Int) : Int :=
  let y := if m ≤ 2 then y - 1 else y
  let era := y.fdiv 400
  let yoe := y - era * 400
  let mp := (m + 9).emod 12
  let doy := (153 * mp + 2) / 5
  let doe := yoe * 365 + yoe / 4 - yoe / 100 + doy
  era * 146097 + doe - 719468

/-- `new Date(year, monthIndex, day, hours, minutes, seconds).getTime()` on a
fixed-offset local clock: NaN in any component gives an invalid date (NaN
time value); years 0-99 map to 1900-1999; out-of-range month indices, days,
hours, minutes and seconds roll over arithmetically as in JS. -/
def jsDateMs : JSNum → JSNum → JSNum → JSNum → JSNum → JSNum → JSNum
  | .num y, .num m, .num d, .num hh, .num mi, .num ss =>
    let y := if 0 ≤ y ∧ y ≤ 99 then y + 1900 else y
    let y2 := y + m.fdiv 12
    let m2 := m.emod 12
    .num ((daysFromCivil y2 (m2 + 1) + (d - 1)) * 86400000
      + hh * 3600000 + mi * 60000 + ss * 1000)
  | _, _, _, _, _, _ => .nan

/-- `parseLocalDate(dateStr)`: split on "-" into year, month, day and build
local midnight of that day. -/
def parseLocalDate (dateStr : String) : JSNum :=
  let parts := splitOnSep '-' dateStr.data
  jsDateMs (jsIndexNum parts 0) (jsSub (jsIndexNum parts 1) (.num 1))
    (jsIndexNum parts 2) (.num 0) (.num 0) (.num 0)

/-- `parseLocalDateTime(dateStr, timeStr)`: with a (truthy) time string,
the exact local instant at that HH:MM; otherwise 23:59:59 local time on
that day. -/
def parseLocalDateTime (dateStr : String) (timeStr : Option String) : JSNum :=
  let parts := splitOnSep '-' dateStr.data
  let y := jsIndexNum parts 0
  let mo := jsIndexNum parts 1
  let d := jsIndexNum parts 2
  match timeStr with
  | some t =>
    if t = "" then jsDateMs y (jsSub mo (.num 1)) d (.num 23) (.num 59) (.num 59)
    else
      let tparts := splitOnSep ':' t.data
      jsDateMs y (jsSub mo (.num 1)) d (jsIndexNum tparts 0) (jsIndexNum tparts 1) (.num 0)
  | none => jsDateMs y (jsSub mo (.num 1)) d (.num 23) (.num 59) (.num 59)

/-- `timeToMinutes(time)`: null/undefined/empty gives null (`none`);
otherwise split on ":" and compute `hours * 60 + minutes` in JS arithmetic
(non-numeric fields give NaN). -/
def timeToMinutes (time : Option String) : Option JSNum :=
  match time with
  | none => none
  | some t =>
    if t = "" then none
    else
      let parts := splitOnSep ':' t.data
      some (jsAdd (jsMul (jsIndexNum parts 0) (.num 60)) (jsIndexNum parts 1))

/-- `hasTimeOverlap(start1, end1, start2, end2)`: a missing start on either
side means same-day conflict; a missing end defaults to start + 60 minutes;
otherwise half-open interval overlap `start1 < end2 && start2 < end1`. -/
def hasTimeOverlap (start1 end1 start2 end2 : Option JSNum) : Bool :=
  match start1, start2 with
  | none, _ => true
  | some _, none => true
  | some s1, some s2 =>
    let effectiveEnd1 := end1.getD (jsAdd s1 (.num 60))
    let effectiveEnd2 := end2.getD (jsAdd s2 (.num 60))
    jsLt s1 effectiveEnd2 && jsLt s2 effectiveEnd1

/-- The fields of an existing calendar event read by the conflict detector. -/
structure Event where
  id : Nat
  title : String
  startDate : String
  startTime : Option String
  endTime : Option String
deriving DecidableEq, Repr

/-- The fields of an existing task read by the conflict detector. -/
structure Task where
  id : Nat
  title : String
  dueDate : String
deriving DecidableEq, Repr

/-- A reported conflict (`ConflictItem` in the source). -/
structure ConflictItem where
  type : String
  title : String
  date : String
  startTime : Option String
  endTime : Option String
deriving DecidableEq, Repr

/-- `excludeId && item.id === excludeId`: the guard skipping the item being
edited; an exclusion id of 0 (or absent) is falsy and excludes nothing. -/
def isExcluded (excludeId : Option Nat) (itemId : Nat) : Bool :=
  match excludeId with
  | some x => decide (x ≠ 0) && decide (itemId = x)
  | none => false

/-- `checkTimeConflict(newDate, newStartTime, newEndTime, events, tasks,
excludeEventId, excludeTaskId)`: collects conflicting events (same date and
overlapping times), then — only when the candidate itself has no start
time — same-date tasks. -/
def checkTimeConflict (newDate : String) (newStartTime newEndTime : Option String)
    (events : List Event) (tasks : List Task)
    (excludeEventId excludeTaskId : Option Nat) : List ConflictItem :=
  let newStart := timeToMinutes newStartTime
  let newEnd := timeToMinutes newEndTime
  let eventConflicts := events.filterMap (fun e =>
    if isExcluded excludeEventId e.id then none
    else if e.startDate = newDate then
      if hasTimeOverlap newStart newEnd (timeToMinutes e.startTime) (timeToMinutes e.endTime)
      then some ⟨"event", e.title, e.startDate, e.startTime, e.endTime⟩
      else none
    else none)
  let taskConflicts :=
    if newStart = none then
      tasks.filterMap (fun t =>
        if isExcluded excludeTaskId t.id then none
        else if t.dueDate = newDate then
          some ⟨"task", t.title, t.dueDate, none, none⟩
        else none)
    else []
  eventConflicts ++ taskConflicts

/-- The fields of a reminder read or written by the reminders page and the
persistence layer. -/
structure Reminder where
  id : Nat
  title : String
  description : Option String
  reminderType : String
  dueDate : String
  dueTime : Option String
  priority : String
  notificationEnabled : Bool
  status : String
  completedAt : Option String
  disciplineId : Option Nat
deriving DecidableEq, Repr

/-- `NOTIFICATION_INTERVALS = [15, 5, 3, 1]` minutes before due. -/
def NOTIFICATION_INTERVALS : List Nat := [15, 5, 3, 1]

/-- The idempotence key `` `${reminder.id}-${interval}` ``. -/
def notifKey (rid : Nat) (iv : Nat) : String :=
  toString rid ++ "-" ++ toString iv

/-- The inner `NOTIFICATION_INTERVALS.forEach` loop of `checkReminders`:
fire the key when `diffMinutes <= interval && diffMinutes > interval - 1`
and the key is not yet in the notified set, adding it to the set.
Returns the keys fired (in order) and the updated notified set. -/
def notifyIntervals (rid : Nat) (diffMinutes : JSNum) :
    List Nat → List String → List String × List String
  | [], notified => ([], notified)
  | iv :: rest, notified =>
    if jsLe diffMinutes (.num (iv : Int)) && jsLt (.num ((iv : Int) - 1)) diffMinutes
        && !(notified.contains (notifKey rid iv)) then
      (notifKey rid iv ::
          (notifyIntervals rid diffMinutes rest (notifKey rid iv :: notified)).1,
        (notifyIntervals rid diffMinutes rest (notifKey rid iv :: notified)).2)
    else notifyIntervals rid diffMinutes rest notified

/-- The body of `checkReminders` for one reminder: skip `completed`; emit a
status update to `overdue` when `diffMs < 0` and status is `pending`; when
the page has notification permission and the reminder has notifications
enabled, run the lead-time loop. Returns (status updates, fired keys,
updated notified set); the textual notification payload is not modelled,
only its identifying key/tag. -/
def checkReminder (notificationsEnabled : Bool) (now : Int) (r : Reminder)
    (notified : List String) :
    List (Nat × String) × List String × List String :=
  if r.status = "completed" then ([], [], notified)
  else
    let dueDateTime := parseLocalDateTime r.dueDate r.dueTime
    let diffMs := jsSub dueDateTime (.num now)
    let diffMinutes := jsFloorDiv diffMs 60000
    let updates :=
      if jsLt diffMs (.num 0) && decide (r.status = "pending")
      then [(r.id, "overdue")] else []
    if notificationsEnabled && r.notificationEnabled then
      let res := notifyIntervals r.id diffMinutes NOTIFICATION_INTERVALS notified
      (updates, res.1, res.2)
    else (updates, [], notified)

/-- One evaluation tick of `checkReminders`: fold the per-reminder body over
the current snapshot, threading the notified set. -/
def checkReminders (notificationsEnabled : Bool) (now : Int) :
    List Reminder → List String → List (Nat × String) × List String × List String
  | [], notified => ([], [], notified)
  | r :: rs, notified =>
    let a := checkReminder notificationsEnabled now r notified
    let b := checkReminders notificationsEnabled now rs a.2.2
    (a.1 ++ b.1, a.2.1 ++ b.2.1, b.2.2)

/-- A run of the scheduler: a sequence of ticks, each with its wall-clock
time and the reminder snapshot current at that tick, threading the
process-lifetime notified set. Returns all fired keys and the final set. -/
def runTicks (notificationsEnabled : Bool) :
    List (Int × List Reminder) → List String → List String × List String
  | [], notified => ([], notified)
  | (t, rs) :: ticks, notified =>
    let a := checkReminders notificationsEnabled t rs notified
    let b := runTicks notificationsEnabled ticks a.2.2
    (a.2.1 ++ b.1, b.2)

/-- A PATCH body for `/api/reminders/:id` (`Partial<Reminder>`): a field is
`some v` when present in the JSON body. -/
structure ReminderPatch where
  title : Option String := none
  description : Option (Option String) := none
  reminderType : Option String := none
  dueDate : Option String := none
  dueTime : Option (Option String) := none
  priority : Option String := none
  notificationEnabled : Option Bool := none
  status : Option String := none
  completedAt : Option (Option String) := none
  disciplineId : Option (Option Nat) := none
deriving DecidableEq, Repr

/-- `updateReminder`'s merge `{ ...reminder, ...data }`: fields present in
the patch replace the stored ones, all others are kept. -/
def applyPatch (r : Reminder) (p : ReminderPatch) : Reminder :=
  { id := r.id
    title := p.title.getD r.title
    description := p.description.getD r.description
    reminderType := p.reminderType.getD r.reminderType
    dueDate := p.dueDate.getD r.dueDate
    dueTime := p.dueTime.getD r.dueTime
    priority := p.priority.getD r.priority
    notificationEnabled := p.notificationEnabled.getD r.notificationEnabled
    status := p.status.getD r.status
    completedAt := p.completedAt.getD r.completedAt
    disciplineId := p.disciplineId.getD r.disciplineId }

/-- The body sent by `updateStatusMutation`: `{ status }` alone. -/
def updateStatusBody (status : String) : ReminderPatch :=
  { status := some status }

/-- The body sent by `toggleStatusMutation`: completed goes back to pending,
anything else to completed; `completedAt` is the current ISO timestamp on
completion and null otherwise. -/
def toggleStatusBody (r : Reminder) (nowIso : String) : ReminderPatch :=
  let newStatus := if r.status = "completed" then "pending" else "completed"
  { status := some newStatus
    completedAt := some (if newStatus = "completed" then some nowIso else none) }

/-! ### Helper lemmas -/

/-- Anything the event loop of `checkTimeConflict` emits is an event item
with the matching date. -/
lemma eventLoop_emits {newDate : String} {newStart newEnd : Option JSNum}
    {exE : Option Nat} {e : Event} {c : ConflictItem}
    (h : (if isExcluded exE e.id then none
          else if e.startDate = newDate then
            if hasTimeOverlap newStart newEnd (timeToMinutes e.startTime) (timeToMinutes e.endTime)
            then some ⟨"event", e.title, e.startDate, e.startTime, e.endTime⟩
            else none
          else none) = some c) :
    c = ⟨"event", e.title, e.startDate, e.startTime, e.endTime⟩ ∧ e.startDate = newDate := by
  split at h
  · exact absurd h (by simp)
  · split at h
    · split at h
      · exact ⟨(Option.some.injEq _ _).mp h.symm, by assumption⟩
      · exact absurd h (by simp)
    · exact absurd h (by simp)

/-- Anything the task loop of `checkTimeConflict` emits is a task item with
the matching date. -/
lemma taskLoop_emits {newDate : String} {exT : Option Nat} {t : Task} {c : ConflictItem}
    (h : (if isExcluded exT t.id then none
          else if t.dueDate = newDate then
            some ⟨"task", t.title, t.dueDate, none, none⟩
          else none) = some c) :
    c = ⟨"task", t.title, t.dueDate, none, none⟩ ∧ t.dueDate = newDate := by
  split at h
  · exact absurd h (by simp)
  · split at h
    · exact ⟨(Option.some.injEq _ _).mp h.symm, by assumption⟩
    · exact absurd h (by simp)

/-- Case analysis for membership in a `checkTimeConflict` result. -/
lemma checkTimeConflict_mem_cases {newDate : String} {nst net : Option String}
    {events : List Event} {tasks : List Task} {exE exT : Option Nat} {c : ConflictItem}
    (hc : c ∈ checkTimeConflict newDate nst net events tasks exE exT) :
    (∃ e ∈ events, c = ⟨"event", e.title, e.startDate, e.startTime, e.endTime⟩
        ∧ e.startDate = newDate)
    ∨ (timeToMinutes nst = none ∧
        ∃ t ∈ tasks, c = ⟨"task", t.title, t.dueDate, none, none⟩ ∧ t.dueDate = newDate) := by
  unfold checkTimeConflict at hc
  rcases List.mem_append.mp hc with h | h
  · rcases List.mem_filterMap.mp h with ⟨e, he, hfe⟩
    exact Or.inl ⟨e, he, eventLoop_emits hfe⟩
  · right
    split at h
    · rcases List.mem_filterMap.mp h with ⟨t, ht, hft⟩
      exact ⟨by assumption, t, ht, taskLoop_emits hft⟩
    · exact absurd h (by simp)

/-! ### Claim theorems -/

/-- C1: when both candidate and existing item have a start time, the
conflict detector reports overlap iff `start1 < effectiveEnd2` and
`start2 < effectiveEnd1`, where a missing end time defaults to start + 60
minutes; on the same date, candidate [09:00,10:00) overlaps existing
[09:30,10:30) but not existing [10:00,11:00) (half-open, adjacent ranges
do not conflict). -/
theorem hasTimeOverlap_spec :
    (∀ (s1 s2 : Int) (e1 e2 : Option Int),
      hasTimeOverlap (some (.num s1)) (e1.map JSNum.num) (some (.num s2)) (e2.map JSNum.num)
        = (decide (s1 < e2.getD (s2 + 60)) && decide (s2 < e1.getD (s1 + 60))))
    ∧ checkTimeConflict "2024-05-10" (some "09:00") (some "10:00")
        [⟨1, "Existing", "2024-05-10", some "09:30", some "10:30"⟩] [] none none
        = [⟨"event", "Existing", "2024-05-10", some "09:30", some "10:30"⟩]
    ∧ checkTimeConflict "2024-05-10" (some "09:00") (some "10:00")
        [⟨1, "Existing", "2024-05-10", some "10:00", some "11:00"⟩] [] none none
        = [] := by
  refine ⟨fun s1 s2 e1 e2 => ?_, by decide, by decide⟩
  cases e1 <;> cases e2 <;> simp [hasTimeOverlap, jsLt, jsAdd]

/-- C2: every reported conflict carries the candidate date (items on other
dates never contribute), and a same-date, non-excluded event contributes a
conflict whenever neither the candidate nor the event has a start time. -/
theorem checkTimeConflict_same_date_spec :
    (∀ (newDate : String) (nst net : Option String) (events : List Event)
        (tasks : List Task) (exE exT : Option Nat),
      ∀ c ∈ checkTimeConflict newDate nst net events tasks exE exT, c.date = newDate)
    ∧ (∀ (newDate : String) (net : Option String) (events : List Event)
        (tasks : List Task) (exE exT : Option Nat) (e : Event),
      e ∈ events → e.startDate = newDate → e.startTime = none →
      isExcluded exE e.id = false →
      (⟨"event", e.title, e.startDate, e.startTime, e.endTime⟩ : ConflictItem)
          ∈ checkTimeConflict newDate none net events tasks exE exT
        ∧ checkTimeConflict newDate none net events tasks exE exT ≠ []) := by
  constructor
  · intro newDate nst net events tasks exE exT c hc
    rcases checkTimeConflict_mem_cases hc with ⟨e, _, rfl, hd⟩ | ⟨_, t, _, rfl, hd⟩ <;>
      simpa using hd
  · intro newDate net events tasks exE exT e he hdate hstart hexcl
    have hmem : (⟨"event", e.title, e.startDate, e.startTime, e.endTime⟩ : ConflictItem)
        ∈ checkTimeConflict newDate none net events tasks exE exT := by
      unfold checkTimeConflict
      refine List.mem_append.mpr (Or.inl (List.mem_filterMap.mpr ⟨e, he, ?_⟩))
      simp [hexcl, hdate, hstart, hasTimeOverlap, timeToMinutes]
    exact ⟨hmem, List.ne_nil_of_mem hmem⟩

/-- C5: a candidate with a (nonempty) start time never receives task
conflicts — every reported item is an event; conversely a task item can
appear only when the candidate's start time parses to null and the task's
due date equals the candidate date. -/
theorem task_conflict_direction_spec :
    (∀ (newDate s : String) (net : Option String) (events : List Event)
        (tasks : List Task) (exE exT : Option Nat),
      s ≠ "" →
      ∀ c ∈ checkTimeConflict newDate (some s) net events tasks exE exT,
        c.type = "event")
    ∧ (∀ (newDate : String) (nst net : Option String) (events : List Event)
        (tasks : List Task) (exE exT : Option Nat),
      ∀ c ∈ checkTimeConflict newDate nst net events tasks exE exT,
        c.type = "task" →
        timeToMinutes nst = none ∧ c.date = newDate ∧
          ∃ t ∈ tasks, t.dueDate = newDate ∧
            c = ⟨"task", t.title, t.dueDate, none, none⟩) := by
  constructor
  · intro newDate s net events tasks exE exT hs c hc
    rcases checkTimeConflict_mem_cases hc with ⟨e, _, rfl, _⟩ | ⟨hnone, _⟩
    · rfl
    · exact absurd hnone (by simp [timeToMinutes, hs])
  · intro newDate nst net events tasks exE exT c hc htype
    rcases checkTimeConflict_mem_cases hc with ⟨e, _, rfl, _⟩ | ⟨hnone, t, ht, rfl, hd⟩
    · exact absurd htype (by simp)
    · exact ⟨hnone, by simpa using hd, t, ht, hd, rfl⟩

/-- Witness for C2: a same-day no-time event against a no-time candidate is
reported. -/
theorem checkTimeConflict_same_date_spec_witness :
    (⟨"event", "E", "2024-05-10", none, none⟩ : ConflictItem)
        ∈ checkTimeConflict "2024-05-10" none none
          [⟨1, "E", "2024-05-10", none, none⟩] [] none none
      ∧ checkTimeConflict "2024-05-10" none none
          [⟨1, "E", "2024-05-10", none, none⟩] [] none none ≠ [] :=
  checkTimeConflict_same_date_spec.2 "2024-05-10" none
    [⟨1, "E", "2024-05-10", none, none⟩] [] none none
    ⟨1, "E", "2024-05-10", none, none⟩ (by simp) rfl rfl rfl

/-- Witness for C5: with a timed candidate, the reported conflict on a
concrete same-day pair is an event item. -/
theorem task_conflict_direction_spec_witness :
    (⟨"event", "A", "2024-05-10", some "09:30", some "10:30"⟩ : ConflictItem).type
      = "event" :=
  task_conflict_direction_spec.1 "2024-05-10" "09:00" (some "10:00")
    [⟨1, "A", "2024-05-10", some "09:30", some "10:30"⟩] [] none none
    (by decide) _ (by decide)

/-- A floor division by 60000 is negative exactly when its argument is. -/
lemma jsLt_floorDiv_neg (x : JSNum) :
    jsLt (jsFloorDiv x 60000) (.num 0) = jsLt x (.num 0) := by
  cases x with
  | nan => rfl
  | num a =>
    simp only [jsFloorDiv, jsLt, decide_eq_decide]
    rw [Int.fdiv_eq_ediv _ (by norm_num)]
    by_cases h : a < 0
    · have hneg : a / 60000 < 0 := Int.ediv_neg' h (by norm_num)
      simp [h, hneg]
    · have h0 : 0 ≤ a := le_of_not_lt h
      have hpos : 0 ≤ a / 60000 := Int.ediv_nonneg h0 (by norm_num)
      simp [h, not_lt.mpr hpos]

/-- C3 counterexample: at a wall-clock time exactly equal to the due
instant (so `now ≥ dueInstant` holds), the pending reminder is not
promoted — no status update is emitted on that tick. -/
theorem overdue_boundary_counterexample :
    parseLocalDateTime "2024-05-10" (some "12:00") = .num 1715342400000 ∧
    (checkReminders true 1715342400000
      [⟨1, "p", none, "prova", "2024-05-10", some "12:00", "high", true,
        "pending", none, none⟩] []).1 = [] := by decide

/-- C3 (amended): one tick on a reminder emits the `overdue` status update
iff the status is `pending` and the due instant is strictly before `now`
(`diffMs < 0`, equivalently `diffMinutes = floor(diffMs / 60000) < 0`);
no update is emitted in any other status, and a pending reminder due
yesterday is promoted by one tick. -/
theorem checkReminders_overdue_spec :
    (∀ (now : Int) (r : Reminder) (st : List String),
      (checkReminders true now [r] st).1 =
        if r.status = "pending"
            ∧ jsLt (jsSub (parseLocalDateTime r.dueDate r.dueTime) (.num now)) (.num 0) = true
        then [(r.id, "overdue")] else [])
    ∧ (∀ x : JSNum, jsLt (jsFloorDiv x 60000) (.num 0) = jsLt x (.num 0))
    ∧ (checkReminders true 1715342400000
        [⟨2, "y", none, "prova", "2024-05-09", some "10:00", "high", true,
          "pending", none, none⟩] []).1 = [(2, "overdue")] := by
  refine ⟨?_, jsLt_floorDiv_neg, by decide⟩
  intro now r st
  by_cases hc : r.status = "completed"
  · simp [checkReminders, checkReminder, hc]
  · by_cases hp : r.status = "pending" <;>
      by_cases hlt : jsLt (jsSub (parseLocalDateTime r.dueDate r.dueTime) (.num now)) (.num 0) = true <;>
      cases hne : r.notificationEnabled <;>
      simp [checkReminders, checkReminder, hc, hp, hlt, hne]

/-- Accounting invariant tying a phase's fired keys to the notified set: a
key already in the set never fires, a fresh key fires at most once, and
every fired key ends up in the set. -/
def keyInv (st fired st2 : List String) : Prop :=
  ∀ k : String, fired.count k + (if k ∈ st then 1 else 0) ≤ (if k ∈ st2 then 1 else 0)

lemma keyInv_refl (st : List String) : keyInv st [] st := by
  intro k
  simp

lemma keyInv_trans {st f1 st1 f2 st2 : List String}
    (h1 : keyInv st f1 st1) (h2 : keyInv st1 f2 st2) : keyInv st (f1 ++ f2) st2 := by
  intro k
  have a := h1 k
  have b := h2 k
  rw [List.count_append]
  omega

lemma keyInv_fire {st : List String} {key : String} (h : key ∉ st) :
    keyInv st [key] (key :: st) := by
  intro k
  by_cases hk : k = key
  · subst hk
    simp [h]
  · simp [List.count_singleton', hk, List.mem_cons]

/-- The notified set grows monotonically, and `keyInv` holds for the
lead-time loop. -/
lemma notifyIntervals_keyInv (rid : Nat) (diff : JSNum) :
    ∀ (ivs : List Nat) (st : List String),
      keyInv st (notifyIntervals rid diff ivs st).1 (notifyIntervals rid diff ivs st).2
  | [], st => keyInv_refl st
  | iv :: rest, st => by
    unfold notifyIntervals
    split
    · rename_i hg
      have hnot : notifKey rid iv ∉ st := by
        have := (Bool.and_eq_true _ _).mp hg
        simpa using this.2
      exact keyInv_trans (keyInv_fire hnot) (notifyIntervals_keyInv rid diff rest _)
    · exact notifyIntervals_keyInv rid diff rest st

lemma checkReminder_keyInv (enab : Bool) (now : Int) (r : Reminder) (st : List String) :
    keyInv st (checkReminder enab now r st).2.1 (checkReminder enab now r st).2.2 := by
  unfold checkReminder
  split
  · exact keyInv_refl st
  · split
    · exact notifyIntervals_keyInv _ _ _ _
    · exact keyInv_refl st

lemma checkReminders_keyInv (enab : Bool) (now : Int) :
    ∀ (rs : List Reminder) (st : List String),
      keyInv st (checkReminders enab now rs st).2.1 (checkReminders enab now rs st).2.2
  | [], st => keyInv_refl st
  | r :: rs, st =>
    keyInv_trans (checkReminder_keyInv enab now r st)
      (checkReminders_keyInv enab now rs _)

lemma runTicks_keyInv (enab : Bool) :
    ∀ (ticks : List (Int × List Reminder)) (st : List String),
      keyInv st (runTicks enab ticks st).1 (runTicks enab ticks st).2
  | [], st => keyInv_refl st
  | (t, rs) :: ticks, st =>
    keyInv_trans (checkReminders_keyInv enab t rs st) (runTicks_keyInv enab ticks _)

/-- Every key fired by the lead-time loop names one of its intervals. -/
lemma notifyIntervals_mem_shape (rid : Nat) (diff : JSNum) :
    ∀ (ivs : List Nat) (st : List String) (k : String),
      k ∈ (notifyIntervals rid diff ivs st).1 → ∃ iv ∈ ivs, k = notifKey rid iv
  | [], _, k, h => by simp [notifyIntervals] at h
  | iv :: rest, st, k, h => by
    unfold notifyIntervals at h
    split at h
    · rcases List.mem_cons.mp h with rfl | h2
      · exact ⟨iv, List.mem_cons_self _ _, rfl⟩
      · obtain ⟨iv2, hm, hk⟩ := notifyIntervals_mem_shape rid diff rest _ k h2
        exact ⟨iv2, List.mem_cons_of_mem _ hm, hk⟩
    · obtain ⟨iv2, hm, hk⟩ := notifyIntervals_mem_shape rid diff rest st k h
      exact ⟨iv2, List.mem_cons_of_mem _ hm, hk⟩

/-- Left-cancellation for string concatenation. -/
lemma string_append_left_cancel {x s t : String} (h : x ++ s = x ++ t) : s = t := by
  have hd := congrArg String.data h
  rw [String.data_append, String.data_append] at hd
  exact String.ext (List.append_cancel_left hd)

/-- Within the fixed interval set, equal keys come from equal intervals. -/
lemma notifKey_inj_intervals (rid : Nat) {a b : Nat}
    (ha : a ∈ NOTIFICATION_INTERVALS) (hb : b ∈ NOTIFICATION_INTERVALS)
    (h : notifKey rid a = notifKey rid b) : a = b := by
  have h2 : toString a = toString b := string_append_left_cancel h
  simp [NOTIFICATION_INTERVALS] at ha hb
  rcases ha with rfl | rfl | rfl | rfl <;> rcases hb with rfl | rfl | rfl | rfl <;>
    first
      | rfl
      | exact absurd h2 (by decide)

/-- Membership in the fired keys of the lead-time loop: a configured
interval's key fires exactly when its window test passes and the key is not
yet in the notified set. -/
lemma notifyIntervals_mem_iff (rid : Nat) (diff : JSNum) :
    ∀ (ivs : List Nat) (st : List String) (iv : Nat),
      iv ∈ ivs → ivs.Nodup →
      (∀ a ∈ ivs, notifKey rid a = notifKey rid iv → a = iv) →
      (notifKey rid iv ∈ (notifyIntervals rid diff ivs st).1 ↔
        ((jsLe diff (.num (iv : Int)) && jsLt (.num ((iv : Int) - 1)) diff) = true
          ∧ notifKey rid iv ∉ st))
  | [], _, _, hiv, _, _ => absurd hiv (by simp)
  | iv' :: rest, st, iv, hiv, hnd, hinj => by
    by_cases hEq : iv' = iv
    · subst hEq
      by_cases hg : (jsLe diff (.num (iv' : Int)) && jsLt (.num ((iv' : Int) - 1)) diff
          && !(st.contains (notifKey rid iv'))) = true
      · have hparts := (Bool.and_eq_true _ _).mp hg
        have hns : notifKey rid iv' ∉ st := by simpa using hparts.2
        simp only [notifyIntervals, if_pos hg]
        exact ⟨fun _ => ⟨hparts.1, hns⟩, fun _ => List.mem_cons_self _ _⟩
      · simp only [notifyIntervals, if_neg hg]
        have hiv_rest : iv' ∉ rest := (List.nodup_cons.mp hnd).1
        constructor
        · intro hmem
          obtain ⟨a, ha, hk⟩ := notifyIntervals_mem_shape rid diff rest st _ hmem
          have haeq : a = iv' := hinj a (List.mem_cons_of_mem _ ha) hk.symm
          exact absurd (haeq ▸ ha) hiv_rest
        · rintro ⟨hw, hns⟩
          exact absurd hg (by simp [hw, hns])
    · have hkey_ne : notifKey rid iv' ≠ notifKey rid iv :=
        fun hcontra => hEq (hinj iv' (List.mem_cons_self _ _) hcontra)
      have hiv_rest : iv ∈ rest := by
        rcases List.mem_cons.mp hiv with h | h
        · exact absurd h.symm hEq
        · exact h
      have hnd' : rest.Nodup := (List.nodup_cons.mp hnd).2
      have hinj' : ∀ a ∈ rest, notifKey rid a = notifKey rid iv → a = iv :=
        fun a ha => hinj a (List.mem_cons_of_mem _ ha)
      by_cases hg : (jsLe diff (.num (iv' : Int)) && jsLt (.num ((iv' : Int) - 1)) diff
          && !(st.contains (notifKey rid iv'))) = true
      · simp only [notifyIntervals, if_pos hg, List.mem_cons]
        have IH := notifyIntervals_mem_iff rid diff rest (notifKey rid iv' :: st) iv
          hiv_rest hnd' hinj'
        constructor
        · rintro (h | h)
          · exact absurd h.symm hkey_ne
          · have h2 := IH.mp h
            exact ⟨h2.1, fun hm => h2.2 (List.mem_cons_of_mem _ hm)⟩
        · rintro ⟨hw, hns⟩
          refine Or.inr (IH.mpr ⟨hw, ?_⟩)
          intro hm
          rcases List.mem_cons.mp hm with h | h
          · exact hkey_ne h.symm
          · exact hns h
      · simp only [notifyIntervals, if_neg hg]
        exact notifyIntervals_mem_iff rid diff rest st iv hiv_rest hnd' hinj'

/-- C4: a lead-time notification for (reminder id, interval) fires on a
tick iff `diffMinutes` is in the half-open window `(interval - 1,
interval]` and the idempotence key is not yet in the notified set; and
across any run of ticks starting from an empty set, each key fires at most
once for the scheduler's lifetime. -/
theorem notification_once_spec :
    (∀ (r : Reminder) (now : Int) (st : List String) (iv : Nat),
      r.status ≠ "completed" → r.notificationEnabled = true →
      iv ∈ NOTIFICATION_INTERVALS →
      (notifKey r.id iv ∈ (checkReminders true now [r] st).2.1 ↔
        ((jsLe (jsFloorDiv (jsSub (parseLocalDateTime r.dueDate r.dueTime) (.num now)) 60000)
              (.num (iv : Int))
            && jsLt (.num ((iv : Int) - 1))
              (jsFloorDiv (jsSub (parseLocalDateTime r.dueDate r.dueTime) (.num now)) 60000)) = true
          ∧ notifKey r.id iv ∉ st)))
    ∧ (∀ (enab : Bool) (ticks : List (Int × List Reminder)) (k : String),
        (runTicks enab ticks []).1.count k ≤ 1) := by
  constructor
  · intro r now st iv hs hn hiv
    have hfired : (checkReminders true now [r] st).2.1 =
        (notifyIntervals r.id
          (jsFloorDiv (jsSub (parseLocalDateTime r.dueDate r.dueTime) (.num now)) 60000)
          NOTIFICATION_INTERVALS st).1 := by
      simp [checkReminders, checkReminder, hs, hn]
    rw [hfired]
    exact notifyIntervals_mem_iff r.id _ NOTIFICATION_INTERVALS st iv hiv (by decide)
      (fun a ha h => notifKey_inj_intervals r.id ha hiv h)
  · intro enab ticks k
    have h := runTicks_keyInv enab ticks [] k
    simp only [List.not_mem_nil, if_false] at h
    exact le_trans (by omega) (le_trans h (by split <;> simp))

/-- Witness for C4: the key for lead time 5 fires on a tick 5 minutes
before the due instant, from an empty notified set. -/
theorem notification_once_spec_witness :
    notifKey 3 5 ∈ (checkReminders true 1715342400000
      [⟨3, "d", none, "prova", "2024-05-10", some "12:05", "medium", true,
        "pending", none, none⟩] []).2.1 :=
  (notification_once_spec.1
    ⟨3, "d", none, "prova", "2024-05-10", some "12:05", "medium", true,
      "pending", none, none⟩ 1715342400000 [] 5 (by decide) rfl (by decide)).mpr
    ⟨by decide, by decide⟩

@[simp] lemma jsAdd_nan_left (x : JSNum) : jsAdd .nan x = .nan := by cases x <;> rfl

@[simp] lemma jsAdd_nan_right (x : JSNum) : jsAdd x .nan = .nan := by cases x <;> rfl

@[simp] lemma jsMul_nan_left (x : JSNum) : jsMul .nan x = .nan := by cases x <;> rfl

@[simp] lemma jsSub_nan_left (x : JSNum) : jsSub .nan x = .nan := by cases x <;> rfl

@[simp] lemma jsLt_nan_left (x : JSNum) : jsLt .nan x = false := by cases x <;> rfl

@[simp] lemma jsLt_nan_right (x : JSNum) : jsLt x .nan = false := by cases x <;> rfl

@[simp] lemma jsLe_nan_left (x : JSNum) : jsLe .nan x = false := by cases x <;> rfl

/-- The lead-time loop never fires on a NaN `diffMinutes`. -/
lemma notifyIntervals_nan (rid : Nat) :
    ∀ (ivs : List Nat) (st : List String), notifyIntervals rid .nan ivs st = ([], st)
  | [], _ => rfl
  | iv :: rest, st => by
    simp only [notifyIntervals, jsLe_nan_left, Bool.false_and, Bool.false_eq_true, if_false]
    exact notifyIntervals_nan rid rest st

/-- C6: with a time string the parsed instant is local midnight of the day
plus the parsed hours and minutes; without one it is local midnight plus
86399000 ms (23:59:59, end of day). Consequently a reminder due 2024-05-10
with no time is not overdue at local noon that day but is overdue at
00:00:01 the next day. -/
theorem parseLocalDateTime_spec :
    (∀ (ds t : String) (y mo d hh mi : Int),
      jsIndexNum (splitOnSep '-' ds.data) 0 = .num y →
      jsIndexNum (splitOnSep '-' ds.data) 1 = .num mo →
      jsIndexNum (splitOnSep '-' ds.data) 2 = .num d →
      t ≠ "" →
      jsIndexNum (splitOnSep ':' t.data) 0 = .num hh →
      jsIndexNum (splitOnSep ':' t.data) 1 = .num mi →
      parseLocalDateTime ds (some t)
        = jsAdd (parseLocalDate ds) (.num (hh * 3600000 + mi * 60000)))
    ∧ (∀ (ds : String) (y mo d : Int),
      jsIndexNum (splitOnSep '-' ds.data) 0 = .num y →
      jsIndexNum (splitOnSep '-' ds.data) 1 = .num mo →
      jsIndexNum (splitOnSep '-' ds.data) 2 = .num d →
      parseLocalDateTime ds none = jsAdd (parseLocalDate ds) (.num 86399000))
    ∧ (checkReminders true 1715342400000
        [⟨1, "n", none, "prova", "2024-05-10", none, "high", true,
          "pending", none, none⟩] []).1 = []
    ∧ (checkReminders true 1715385601000
        [⟨1, "n", none, "prova", "2024-05-10", none, "high", true,
          "pending", none, none⟩] []).1 = [(1, "overdue")] := by
  refine ⟨?_, ?_, by decide, by decide⟩
  · intro ds t y mo d hh mi h1 h2 h3 hne h4 h5
    simp only [parseLocalDateTime, parseLocalDate, h1, h2, h3, h4, h5, if_neg hne]
    simp only [jsSub, jsDateMs, jsAdd, JSNum.num.injEq]
    ring
  · intro ds y mo d h1 h2 h3
    simp only [parseLocalDateTime, parseLocalDate, h1, h2, h3]
    simp only [jsSub, jsDateMs, jsAdd, JSNum.num.injEq]
    ring

/-- Witness for C6: "2024-05-10" at "12:00" is midnight plus 12 hours. -/
theorem parseLocalDateTime_spec_witness :
    parseLocalDateTime "2024-05-10" (some "12:00")
      = jsAdd (parseLocalDate "2024-05-10") (.num (12 * 3600000 + 0 * 60000)) :=
  parseLocalDateTime_spec.1 "2024-05-10" "12:00" 2024 5 10 12 0
    (by decide) (by decide) (by decide) (by decide) (by decide) (by decide)

/-- C7 counterexample: a cancelled reminder with notifications enabled,
due in five minutes, does fire its lead-time notification — cancelled is
not excluded from evaluation. -/
theorem cancelled_notification_counterexample :
    (checkReminders true 1715342400000
      [⟨4, "c", none, "prova", "2024-05-10", some "12:05", "medium", true,
        "cancelled", none, none⟩] []).2.1 = [notifKey 4 5] := by decide

/-- C7 (amended): the tick skips only `completed` reminders (for those,
nothing at all is produced); for a `cancelled` reminder no status update is
ever emitted, since the overdue promotion requires status `pending`, but
lead-time notifications can still fire. -/
theorem scheduler_skip_spec :
    (∀ (now : Int) (r : Reminder) (st : List String),
      r.status = "cancelled" → (checkReminders true now [r] st).1 = [])
    ∧ (∀ (enab : Bool) (now : Int) (r : Reminder) (st : List String),
      r.status = "completed" → checkReminder enab now r st = ([], [], st)) := by
  constructor
  · intro now r st hc
    have h1 : ¬(r.status = "completed") := by rw [hc]; decide
    have h2 : ¬(r.status = "pending") := by rw [hc]; decide
    cases hne : r.notificationEnabled <;>
      simp [checkReminders, checkReminder, h1, h2, hne]
  · intro enab now r st hc
    simp [checkReminder, hc]

/-- Witness for C7's amended theorem: no status update for a concrete
cancelled reminder that is five minutes from due. -/
theorem scheduler_skip_spec_witness :
    (checkReminders true 1715342400000
      [⟨4, "c", none, "prova", "2024-05-10", some "12:05", "medium", true,
        "cancelled", none, none⟩] []).1 = [] :=
  scheduler_skip_spec.1 1715342400000
    ⟨4, "c", none, "prova", "2024-05-10", some "12:05", "medium", true,
      "cancelled", none, none⟩ [] rfl

/-- C8 counterexample: a malformed candidate start time yields NaN minutes,
and the same-day conflict check against a timed event then reports NO
conflict — NaN propagates as "never overlapping", not "always
overlapping". -/
theorem malformed_time_counterexample :
    timeToMinutes (some "ab:cd") = some .nan ∧
    checkTimeConflict "2024-05-10" (some "ab:cd") none
      [⟨1, "A", "2024-05-10", some "09:00", some "10:00"⟩] [] none none = [] := by
  decide

/-- C8 (amended): malformed (non-numeric) time fields produce NaN minutes
rather than failing; every comparison against NaN is false, so an overlap
check in which either side's parsed start is NaN reports no overlap, and a
reminder whose due instant is invalid (NaN) is never promoted and never
notifies. -/
theorem malformed_nan_spec :
    (∀ (t : String), t ≠ "" →
      (jsIndexNum (splitOnSep ':' t.data) 0 = .nan
        ∨ jsIndexNum (splitOnSep ':' t.data) 1 = .nan) →
      timeToMinutes (some t) = some .nan)
    ∧ (∀ (e1 e2 : Option JSNum) (s2 : JSNum),
        hasTimeOverlap (some .nan) e1 (some s2) e2 = false)
    ∧ (∀ (s1 : JSNum) (e1 e2 : Option JSNum),
        hasTimeOverlap (some s1) e1 (some .nan) e2 = false)
    ∧ (∀ (enab : Bool) (now : Int) (r : Reminder) (st : List String),
        parseLocalDateTime r.dueDate r.dueTime = .nan →
        checkReminder enab now r st = ([], [], st)) := by
  refine ⟨?_, ?_, ?_, ?_⟩
  · intro t hne h
    rcases h with h | h <;> simp [timeToMinutes, hne, h]
  · intro e1 e2 s2
    simp [hasTimeOverlap]
  · intro s1 e1 e2
    simp [hasTimeOverlap, Bool.and_comm]
  · intro enab now r st hdue
    by_cases hc : r.status = "completed"
    · simp [checkReminder, hc]
    · simp [checkReminder, hc, hdue, jsFloorDiv, notifyIntervals_nan]

/-- Witness for C8's amended theorem: "ab:cd" parses to NaN minutes. -/
theorem malformed_nan_spec_witness :
    timeToMinutes (some "ab:cd") = some .nan :=
  malformed_nan_spec.1 "ab:cd" (by decide) (Or.inl (by decide))

/-- C9: toggling pending → completed → pending restores status `pending`
and `completedAt` null (and the whole record, if `completedAt` was null to
begin with), and a toggle always establishes the invariant that
`completedAt` is non-null iff the status is `completed`. -/
theorem toggle_roundtrip_spec :
    (∀ (r : Reminder) (iso1 iso2 : String),
      r.status = "pending" →
      applyPatch (applyPatch r (toggleStatusBody r iso1))
          (toggleStatusBody (applyPatch r (toggleStatusBody r iso1)) iso2)
        = { r with status := "pending", completedAt := none })
    ∧ (∀ (r : Reminder) (iso1 iso2 : String),
      r.status = "pending" → r.completedAt = none →
      applyPatch (applyPatch r (toggleStatusBody r iso1))
          (toggleStatusBody (applyPatch r (toggleStatusBody r iso1)) iso2) = r)
    ∧ (∀ (r : Reminder) (iso : String),
      ((applyPatch r (toggleStatusBody r iso)).completedAt ≠ none
        ↔ (applyPatch r (toggleStatusBody r iso)).status = "completed")) := by
  have hpc : ¬("pending" = "completed") := by decide
  have hcc : ("completed" = "completed") := rfl
  refine ⟨?_, ?_, ?_⟩
  · intro r iso1 iso2 h
    cases r
    simp only at h
    subst h
    simp [toggleStatusBody, applyPatch, hpc]
  · intro r iso1 iso2 h hca
    cases r
    simp only at h hca
    subst h
    subst hca
    simp [toggleStatusBody, applyPatch, hpc]
  · intro r iso
    by_cases hc : r.status = "completed" <;>
      simp [toggleStatusBody, applyPatch, hc, hpc]

/-- Witness for C9: a concrete pending reminder round-trips. -/
theorem toggle_roundtrip_spec_witness :
    applyPatch (applyPatch
        (⟨7, "t", none, "prova", "2024-05-10", none, "high", true,
          "pending", none, none⟩ : Reminder)
        (toggleStatusBody
          ⟨7, "t", none, "prova", "2024-05-10", none, "high", true,
            "pending", none, none⟩ "2024-05-01T10:00:00Z"))
      (toggleStatusBody (applyPatch
        (⟨7, "t", none, "prova", "2024-05-10", none, "high", true,
          "pending", none, none⟩ : Reminder)
        (toggleStatusBody
          ⟨7, "t", none, "prova", "2024-05-10", none, "high", true,
            "pending", none, none⟩ "2024-05-01T10:00:00Z")) "2024-05-02T10:00:00Z")
      = ⟨7, "t", none, "prova", "2024-05-10", none, "high", true,
          "pending", none, none⟩ :=
  toggle_roundtrip_spec.2.1
    ⟨7, "t", none, "prova", "2024-05-10", none, "high", true, "pending", none, none⟩
    "2024-05-01T10:00:00Z" "2024-05-02T10:00:00Z" rfl rfl

/-- Every status update a single reminder check emits is an `overdue`
transition. -/
lemma checkReminder_updates_overdue (enab : Bool) (now : Int) (r : Reminder)
    (st : List String) :
    ∀ u ∈ (checkReminder enab now r st).1, u.2 = "overdue" := by
  intro u hu
  unfold checkReminder at hu
  split at hu
  · exact absurd hu (by simp)
  · split at hu <;> simp only at hu <;> split at hu <;> simp_all

/-- C10: the automatic overdue promotion patches only the status field:
every update the tick emits is a status-only `overdue` transition, and
applying a status-only PATCH body leaves every other reminder field
unchanged. -/
theorem overdue_patch_frame_spec :
    (∀ (enab : Bool) (now : Int) (rs : List Reminder) (st : List String),
      ∀ u ∈ (checkReminders enab now rs st).1, u.2 = "overdue")
    ∧ (∀ (r : Reminder) (s : String),
      (applyPatch r (updateStatusBody s)).status = s
      ∧ (applyPatch r (updateStatusBody s)).id = r.id
      ∧ (applyPatch r (updateStatusBody s)).completedAt = r.completedAt
      ∧ (applyPatch r (updateStatusBody s)).dueDate = r.dueDate
      ∧ (applyPatch r (updateStatusBody s)).dueTime = r.dueTime
      ∧ (applyPatch r (updateStatusBody s)).title = r.title
      ∧ (applyPatch r (updateStatusBody s)).priority = r.priority
      ∧ (applyPatch r (updateStatusBody s)).notificationEnabled = r.notificationEnabled
      ∧ (applyPatch r (updateStatusBody s)).description = r.description
      ∧ (applyPatch r (updateStatusBody s)).reminderType = r.reminderType
      ∧ (applyPatch r (updateStatusBody s)).disciplineId = r.disciplineId) := by
  constructor
  · intro enab now rs
    induction rs with
    | nil => intro st u hu; simp [checkReminders] at hu
    | cons r rs ih =>
      intro st u hu
      simp only [checkReminders] at hu
      rcases List.mem_append.mp hu with h | h
      · exact checkReminder_updates_overdue enab now r st u h
      · exact ih _ u h
  · intro r s
    refine ⟨rfl, rfl, rfl, rfl, rfl, rfl, rfl, rfl, rfl, rfl, rfl⟩

/-- Witness for C10: a concrete emitted update is the overdue transition. -/
theorem overdue_patch_frame_spec_witness :
    ((2 : Nat), "overdue").2 = "overdue" :=
  overdue_patch_frame_spec.1 true 1715342400000
    [⟨2, "y", none, "prova", "2024-05-09", some "10:00", "high", true,
      "pending", none, none⟩] [] (2, "overdue") (by decide)

end SmartPlan
